import Mathlib

/-!
Verification of the GuruTvapay Node.js SDK (`gurutvapay-node-sdk.js`).

A shallow embedding of the SDK's core: the retry/backoff dispatcher
(`_fetchWithRetry`), the auth-header provider (`_authHeader`), the login
operation (`loginWithPassword`), the header assembly of `request` and
`createPayment`, and the webhook verifier (`verifyWebhook`) together with a
concrete executable HMAC-SHA256 modelling Node's `crypto` module.

JavaScript numbers are modelled as `ℚ` (no claim here depends on binary
floating-point rounding), byte buffers as `List Nat` with entries below 256,
and thrown errors as an `Except`-style outcome carrying the SDK's error
classifications.
-/

/-! ## JavaScript value model

A small model of the JSON values the SDK manipulates (the results of
`JSON.parse` and the fields it reads from them), together with the JavaScript
truthiness and coercion rules the source relies on. -/

/-- JSON values as produced by `JSON.parse`; numbers are modelled as `ℚ`. -/
inductive JsonValue where
  | null : JsonValue
  | bool (b : Bool) : JsonValue
  | num (q : ℚ) : JsonValue
  | str (s : String) : JsonValue
  | arr (elems : List JsonValue) : JsonValue
  | obj (fields : List (String × JsonValue)) : JsonValue

/-- JavaScript truthiness of a JSON value: `null`, `false`, `0` and `""` are
falsy, everything else (including `[]` and `{}`) is truthy. -/
def jsTruthy : JsonValue → Bool
  | .null => false
  | .bool b => b
  | .num q => q != 0
  | .str s => s != ""
  | .arr _ => true
  | .obj _ => true

/-- Truthiness of an optional value: an absent value (JS `undefined` or
`null`) is falsy. -/
def jsTruthyOpt : Option JsonValue → Bool
  | none => false
  | some v => jsTruthy v

/-- Truthiness of an optional string field of the client (JS `undefined`,
`null` and `""` are falsy). -/
def jsTruthyStr : Option String → Bool
  | none => false
  | some s => s != ""

/-- Property access `v.k` on an object: the first binding of key `k`
(JavaScript objects hold at most one binding per key); `none` models
`undefined`. -/
def getField : JsonValue → String → Option JsonValue
  | .obj fields, k => fields.lookup k
  | _, _ => none

/-- JS `x || d` on a possibly-absent field value: the field itself when
present and truthy, otherwise the default. -/
def jsOrOpt (x : Option JsonValue) (d : JsonValue) : JsonValue :=
  match x with
  | some v => if jsTruthy v then v else d
  | none => d

/-- String coercion as used by template literals. Number formatting is only
needed for integral values in this development; non-integral rationals fall
back to Lean's `Rat` printing. -/
def jsToString : JsonValue → String
  | .null => "null"
  | .bool b => if b then "true" else "false"
  | .num q => if q.den = 1 then toString q.num else toString q
  | .str s => s
  | .arr _ => ""
  | .obj _ => "[object Object]"

/-- Numeric coercion (JS `ToNumber`) on the value shapes the SDK stores;
`none` models `NaN` (comparisons against `NaN` are false). Strings are
parsed only in the plain decimal-integer form; other strings give `NaN`. -/
def jsToNumber : JsonValue → Option ℚ
  | .null => some 0
  | .bool b => some (if b then 1 else 0)
  | .num q => some q
  | .str s =>
      if s = "" then some 0
      else if s.data.all Char.isDigit then
        some ((s.data.foldl (fun a c => a * 10 + (c.toNat - 48)) 0 : ℕ) : ℚ)
      else none
  | .arr _ => none
  | .obj _ => none

/-- JS `+` restricted to the shapes reachable in the SDK: numeric addition on
two numbers, string concatenation when either side is not a number. -/
def jsAdd (a b : JsonValue) : JsonValue :=
  match a, b with
  | .num x, .num y => .num (x + y)
  | _, _ => .str (jsToString a ++ jsToString b)

/-! ## Bytes, hex and UTF-8

Byte buffers are `List Nat` with entries below 256. `bufferFromHex` models
Node's `Buffer.from(s, 'hex')`: it decodes pairs of hex digits and stops at
the first character that is not a hex digit (or at a trailing unpaired
character), truncating the result rather than failing. -/

/-- Value of a hex digit, `none` for any other character (both cases
accepted, as in Node's hex decoding). -/
def hexDigitVal : Char → Option Nat
  | c =>
    if '0' ≤ c ∧ c ≤ '9' then some (c.toNat - 48)
    else if 'a' ≤ c ∧ c ≤ 'f' then some (c.toNat - 87)
    else if 'A' ≤ c ∧ c ≤ 'F' then some (c.toNat - 55)
    else none

/-- Node `Buffer.from(·, 'hex')`: decode hex-digit pairs, stopping (and
truncating) at the first invalid or unpaired character. -/
def bufferFromHex : List Char → List Nat
  | c1 :: c2 :: rest =>
    match hexDigitVal c1, hexDigitVal c2 with
    | some hi, some lo => (16 * hi + lo) :: bufferFromHex rest
    | _, _ => []
  | _ => []

/-- Lower-case hex character for `n % 16`. -/
def hexCharAux : Nat → Char
  | 0 => '0' | 1 => '1' | 2 => '2' | 3 => '3' | 4 => '4' | 5 => '5'
  | 6 => '6' | 7 => '7' | 8 => '8' | 9 => '9' | 10 => 'a' | 11 => 'b'
  | 12 => 'c' | 13 => 'd' | 14 => 'e' | _ => 'f'

/-- Lower-case hex character of the low nibble of `n`. -/
def hexChar (n : Nat) : Char := hexCharAux (n % 16)

/-- Lower-case hex encoding of a byte list (two characters per byte), as
produced by Node's `digest('hex')`. -/
def hexEncodeL : List Nat → List Char
  | [] => []
  | b :: t => hexChar (b / 16) :: hexChar (b % 16) :: hexEncodeL t

/-- UTF-8 encoding of a single code point. -/
def utf8Enc (c : Nat) : List Nat :=
  if c < 0x80 then [c]
  else if c < 0x800 then
    [0xC0 + c / 64, 0x80 + c % 64]
  else if c < 0x10000 then
    [0xE0 + c / 4096, 0x80 + (c / 64) % 64, 0x80 + c % 64]
  else
    [0xF0 + c / 262144, 0x80 + (c / 4096) % 64, 0x80 + (c / 64) % 64, 0x80 + c % 64]

/-- UTF-8 bytes of a string (Node's default encoding for string inputs to
`crypto` functions). -/
def strBytes (s : String) : List Nat :=
  (s.data.map (fun c => utf8Enc c.toNat)).flatten

/-! ## SHA-256 and HMAC-SHA256

A direct executable implementation of FIPS 180-4 SHA-256 and RFC 2104 HMAC,
modelling Node's `crypto.createHmac('sha256', secret)`. 32-bit words are
`Nat` reduced modulo `2 ^ 32`; all recursion is structural so the kernel can
evaluate concrete digests. Correctness against the source of truth is
established below by the standard test vectors. -/

/-- Right rotation of a 32-bit word. -/
def rotr32 (n x : Nat) : Nat :=
  ((x >>> n) ||| (x <<< (32 - n))) % 4294967296

/-- The SHA-256 round constants (FIPS 180-4, written in decimal). -/
def K256 : List Nat :=
  [1116352408, 1899447441, 3049323471, 3921009573, 961987163, 1508970993,
   2453635748, 2870763221, 3624381080, 310598401, 607225278, 1426881987,
   1925078388, 2162078206, 2614888103, 3248222580, 3835390401, 4022224774,
   264347078, 604807628, 770255983, 1249150122, 1555081692, 1996064986,
   2554220882, 2821834349, 2952996808, 3210313671, 3336571891, 3584528711,
   113926993, 338241895, 666307205, 773529912, 1294757372, 1396182291,
   1695183700, 1986661051, 2177026350, 2456956037, 2730485921, 2820302411,
   3259730800, 3345764771, 3516065817, 3600352804, 4094571909, 275423344,
   430227734, 506948616, 659060556, 883997877, 958139571, 1322822218,
   1537002063, 1747873779, 1955562222, 2024104815, 2227730452, 2361852424,
   2428436474, 2756734187, 3204031479, 3329325298]

/-- The eight working variables of the SHA-256 compression function. -/
structure Hash8 where
  a : Nat
  b : Nat
  c : Nat
  d : Nat
  e : Nat
  f : Nat
  g : Nat
  h : Nat

/-- The SHA-256 initial hash value (FIPS 180-4, written in decimal). -/
def sha256Init : Hash8 :=
  ⟨1779033703, 3144134277, 1013904242, 2773480762,
   1359893119, 2600822924, 528734635, 1541459225⟩

/-- One SHA-256 round, consuming one `(K, W)` pair. -/
def sha256Round (s : Hash8) (kw : Nat × Nat) : Hash8 :=
  let S1 := (rotr32 6 s.e) ^^^ (rotr32 11 s.e) ^^^ (rotr32 25 s.e)
  let ch := (s.e &&& s.f) ^^^ ((s.e ^^^ 4294967295) &&& s.g)
  let temp1 := (s.h + S1 + ch + kw.1 + kw.2) % 4294967296
  let S0 := (rotr32 2 s.a) ^^^ (rotr32 13 s.a) ^^^ (rotr32 22 s.a)
  let maj := (s.a &&& s.b) ^^^ (s.a &&& s.c) ^^^ (s.b &&& s.c)
  let temp2 := (S0 + maj) % 4294967296
  ⟨(temp1 + temp2) % 4294967296, s.a, s.b, s.c,
   (s.d + temp1) % 4294967296, s.e, s.f, s.g⟩

/-- Big-endian 32-bit words from a byte list (four bytes per word). -/
def bytesToWords : List Nat → List Nat
  | b0 :: b1 :: b2 :: b3 :: t =>
      (b0 * 16777216 + b1 * 65536 + b2 * 256 + b3) :: bytesToWords t
  | _ => []

/-- Extend the 16-word message schedule by `k` further words. -/
def extendW : Nat → List Nat → List Nat
  | 0, w => w
  | k + 1, w =>
    let i := w.length
    let s0v := w.getD (i - 15) 0
    let s1v := w.getD (i - 2) 0
    let s0 := (rotr32 7 s0v) ^^^ (rotr32 18 s0v) ^^^ (s0v >>> 3)
    let s1 := (rotr32 17 s1v) ^^^ (rotr32 19 s1v) ^^^ (s1v >>> 10)
    extendW k (w ++ [(w.getD (i - 16) 0 + s0 + w.getD (i - 7) 0 + s1) % 4294967296])

/-- Process one 64-byte chunk, updating the running hash value. -/
def sha256Chunk (H : Hash8) (chunk : List Nat) : Hash8 :=
  let w := extendW 48 (bytesToWords chunk)
  let s := (K256.zip w).foldl sha256Round H
  ⟨(H.a + s.a) % 4294967296, (H.b + s.b) % 4294967296,
   (H.c + s.c) % 4294967296, (H.d + s.d) % 4294967296,
   (H.e + s.e) % 4294967296, (H.f + s.f) % 4294967296,
   (H.g + s.g) % 4294967296, (H.h + s.h) % 4294967296⟩

/-- Big-endian 8-byte encoding of a 64-bit length. -/
def be64 (n : Nat) : List Nat :=
  [n / 72057594037927936 % 256, n / 281474976710656 % 256,
   n / 1099511627776 % 256, n / 4294967296 % 256,
   n / 16777216 % 256, n / 65536 % 256, n / 256 % 256, n % 256]

/-- SHA-256 padding: a `0x80` byte, zero bytes to 56 mod 64, then the
bit length as a big-endian 64-bit integer. -/
def padMsg (msg : List Nat) : List Nat :=
  let L := msg.length
  let zeros := (64 - (L + 9) % 64) % 64
  msg ++ 0x80 :: List.replicate zeros 0 ++ be64 (L * 8)

/-- Split into 64-byte chunks (fuel-driven so the recursion is structural;
the fuel is always taken to be the list length). -/
def chunks64 : Nat → List Nat → List (List Nat)
  | 0, _ => []
  | _, [] => []
  | fuel + 1, l@(_ :: _) => l.take 64 :: chunks64 fuel (l.drop 64)

/-- The final SHA-256 state of a message. -/
def sha256State (msg : List Nat) : Hash8 :=
  let padded := padMsg msg
  (chunks64 padded.length padded).foldl sha256Chunk sha256Init

/-- Big-endian bytes of a 32-bit word. -/
def w4 (x : Nat) : List Nat :=
  [x / 16777216 % 256, x / 65536 % 256, x / 256 % 256, x % 256]

/-- SHA-256 digest of a byte list, as 32 bytes. -/
def sha256 (msg : List Nat) : List Nat :=
  let s := sha256State msg
  w4 s.a ++ w4 s.b ++ w4 s.c ++ w4 s.d ++ w4 s.e ++ w4 s.f ++ w4 s.g ++ w4 s.h

/-- HMAC-SHA256 (RFC 2104) over byte lists: key hashed down if longer than
the 64-byte block, zero-padded to the block size, then the nested hash with
the `0x36`/`0x5c` pads. -/
def hmacSha256 (key msg : List Nat) : List Nat :=
  let k0 := if 64 < key.length then sha256 key else key
  let kp := k0 ++ List.replicate (64 - k0.length) 0
  let ip := kp.map (fun b => b ^^^ 0x36)
  let op := kp.map (fun b => b ^^^ 0x5c)
  sha256 (op ++ sha256 (ip ++ msg))

set_option maxRecDepth 4000

/-- FIPS 180-4 test vector: SHA-256 of `"abc"`. -/
theorem sha256_vector_abc :
    sha256 (strBytes "abc") =
      [186, 120, 22, 191, 143, 1, 207, 234,
       65, 65, 64, 222, 93, 174, 34, 35,
       176, 3, 97, 163, 150, 23, 122, 156,
       180, 16, 255, 97, 242, 0, 21, 173] := by decide

/-- RFC 4231 test case 2: HMAC-SHA256 with key `"Jefe"`. -/
theorem hmac_vector_jefe :
    hexEncodeL (hmacSha256 (strBytes "Jefe")
        (strBytes "what do ya want for nothing?")) =
      "5bdcc146bf60754e6a042426089575c75a003f089d2739839dec58b964ec3843".data := by
  decide

/-! ## Webhook verifier

`GuruTvapayClient.verifyWebhook(payloadBytes, signatureHeader, secret)`
(source lines 172-180). The signature header is `Option String` (`none`
models an absent header, JS `undefined`). `splitEq`/`hasTag` model
`signatureHeader.split('=')[1]` and `signatureHeader.startsWith('sha256=')`;
`timingSafeEqual` models Node's `crypto.timingSafeEqual` per its documented
contract (a full XOR-accumulating pass over both buffers), with `tseAux`
also returning the number of byte comparisons performed so that the
constant-time property is statable. -/

/-- JS `String.prototype.split('=')` over the character list. -/
def splitEq : List Char → List (List Char)
  | [] => [[]]
  | c :: t =>
    if c = '=' then [] :: splitEq t
    else
      match splitEq t with
      | h :: r => (c :: h) :: r
      | [] => [[c]]

/-- JS `s.startsWith('sha256=')`. -/
def hasTag (l : List Char) : Bool :=
  decide (l.take 7 = "sha256=".data)

/-- XOR-accumulating comparison pass: first component is the OR of all
byte XORs (zero exactly when all pairs agree), second component counts the
byte comparisons performed. -/
def tseAux : List (Nat × Nat) → Nat × Nat
  | [] => (0, 0)
  | (x, y) :: t =>
    let r := tseAux t
    (((x ^^^ y) ||| r.1), r.2 + 1)

/-- Node `crypto.timingSafeEqual` on equal-length buffers: true exactly when
the full XOR-accumulating pass over the zipped bytes ends at zero. -/
def timingSafeEqual (a b : List Nat) : Bool :=
  (tseAux (a.zip b)).1 == 0

/-- Number of byte comparisons the `timingSafeEqual` pass performs. -/
def tseSteps (a b : List Nat) : Nat :=
  (tseAux (a.zip b)).2

/-- `GuruTvapayClient.verifyWebhook` (source lines 172-180): falsy header
rejected outright; an optional `sha256=` tag stripped via `split('=')[1]`;
HMAC-SHA256 of the raw payload bytes hex-encoded; both hex strings decoded
as Node buffers; lengths compared, then a timing-safe byte comparison. -/
def verifyWebhook (payloadBytes : List Nat) (signatureHeader : Option String)
    (secret : String) : Bool :=
  match signatureHeader with
  | none => false
  | some s =>
    if s = "" then false
    else
      let sigHex : List Char :=
        if hasTag s.data then (splitEq s.data).getD 1 [] else s.data
      let mac : List Char := hexEncodeL (hmacSha256 (strBytes secret) payloadBytes)
      let sigBuf := bufferFromHex sigHex
      let macBuf := bufferFromHex mac
      if sigBuf.length ≠ macBuf.length then false
      else timingSafeEqual sigBuf macBuf

/-! ## Retry/backoff dispatcher

`GuruTvapayClient._fetchWithRetry(url, options, attempt)` (source lines
69-115). The injected HTTP transport is a function from the fetch-call
index (0-based) to its outcome: either a resolved response (status,
`Retry-After` header, body text) or a rejection of the exchange itself
(network failure or timeout abort). `JSON.parse` is a parameter
`parseJson` (returning `none` where `JSON.parse` would throw).

The embedding mirrors the source faithfully, including two behaviours the
spec describes differently:

* every classification `throw` (`AuthError`, `NotFound`, `RateLimit`,
  `HTTP <status>`) sits inside the `try` block, so the `catch` clause —
  commented "network / abort errors" in the source — catches it and
  retries whenever `attempt <= this.maxRetries`;
* `clearTimeout(id)` runs only after `await fetch(...)` resolves, so a
  rejected exchange leaves the attempt's timer uncleared
  (`timerCleared` records this per attempt).

`waitsMs` records each value passed to `setTimeout(r, wait)`, in order.
The recursion is driven by structural fuel; the wrapper `fetchWithRetry`
supplies `maxRetries + 1`, which the termination analysis below shows is
never exhausted. -/

/-- The SDK's thrown-error classification, one constructor per message
shape thrown by the source. -/
inductive SdkError where
  | authError (status : Nat) (body : String) : SdkError
  | notFound (url : String) : SdkError
  | rateLimit (body : String) : SdkError
  | httpError (status : Nat) (body : String) : SdkError
  | transportError (msg : String) : SdkError
  | configError (msg : String) : SdkError
  | authenticationError (msg : String) : SdkError
deriving DecidableEq

/-- Outcome of one `fetch` exchange: a resolved HTTP response (status,
`Retry-After` header value, body text), or a rejection of the exchange. -/
inductive FetchOutcome where
  | resp (status : Nat) (retryAfter : Option String) (bodyText : String) : FetchOutcome
  | err (msg : String) : FetchOutcome

/-- The dispatcher-relevant client configuration. -/
structure Cfg where
  timeoutMs : Nat
  maxRetries : Nat
  backoffFactor : ℚ

/-- Observable result of a dispatch: number of fetch exchanges performed,
the `setTimeout` wait values in milliseconds, whether each attempt's
timeout timer was cleared, and the final outcome. -/
structure DispatchResult where
  attempts : Nat
  waitsMs : List ℚ
  timerCleared : List Bool
  outcome : Except SdkError JsonValue

/-- JS `parseInt(s, 10)`: skip leading whitespace, optional sign, then the
longest digit run; `none` models `NaN`. -/
def jsParseInt (s : String) : Option Int :=
  let cs := s.data.dropWhile (fun c => c = ' ' ∨ c = '\t' ∨ c = '\n' ∨ c = '\r')
  let signed : Bool × List Char :=
    match cs with
    | '-' :: t => (true, t)
    | '+' :: t => (false, t)
    | t => (false, t)
  let ds := signed.2.takeWhile Char.isDigit
  if ds = [] then none
  else
    let n : Nat := ds.foldl (fun a c => a * 10 + (c.toNat - 48)) 0
    some (if signed.1 then -(n : Int) else (n : Int))

/-- The body of `_fetchWithRetry`, structurally recursive on `fuel`.
`attempt` is the value of the JS parameter before the `attempt += 1` at the
top of the body; `a` is its value afterwards. `rest` is the result of the
recursive call `this._fetchWithRetry(url, options, attempt)` made by every
retry path; `caught` is the `catch` clause, reached by the thrown
classification errors as well as by transport rejections. -/
def fetchGo (cfg : Cfg) (transport : Nat → FetchOutcome) (url : String)
    (parseJson : String → Option JsonValue) : Nat → Nat → DispatchResult
  | _, 0 => ⟨0, [], [], .error (.transportError "fuel exhausted")⟩
  | attempt, fuel + 1 =>
    let a := attempt + 1
    let fb : ℚ := cfg.backoffFactor * 2 ^ (a - 1) * 1000
    let rest := fetchGo cfg transport url parseJson a fuel
    let retryWith : ℚ → Bool → DispatchResult := fun w cleared =>
      ⟨rest.attempts + 1, w :: rest.waitsMs, cleared :: rest.timerCleared, rest.outcome⟩
    let caught : SdkError → DispatchResult := fun e =>
      if a ≤ cfg.maxRetries then retryWith fb true
      else ⟨1, [], [true], .error e⟩
    match transport attempt with
    | .err msg =>
      if a ≤ cfg.maxRetries then retryWith fb false
      else ⟨1, [], [false], .error (.transportError msg)⟩
    | .resp status retryAfter body =>
      if 200 ≤ status ∧ status ≤ 299 then
        ⟨1, [], [true],
         .ok (match parseJson body with
              | some v => v
              | none => .obj [("raw", .str body)])⟩
      else if status = 401 ∨ status = 403 then caught (.authError status body)
      else if status = 404 then caught (.notFound url)
      else if status = 429 then
        match retryAfter with
        | some ra =>
          if ra ≠ "" ∧ a ≤ cfg.maxRetries then
            let wait : ℚ :=
              match jsParseInt ra with
              | some n => if n = 0 then fb else (n : ℚ)
              | none => fb
            retryWith wait true
          else caught (.rateLimit body)
        | none => caught (.rateLimit body)
      else if 500 ≤ status ∧ a ≤ cfg.maxRetries then retryWith fb true
      else caught (.httpError status body)

/-- `this._fetchWithRetry(url, options)` from `attempt = 0`, with fuel
`maxRetries + 1` (the maximum possible number of fetch exchanges). -/
def fetchWithRetry (cfg : Cfg) (transport : Nat → FetchOutcome) (url : String)
    (parseJson : String → Option JsonValue) : DispatchResult :=
  fetchGo cfg transport url parseJson 0 (cfg.maxRetries + 1)

/-! ## Client state, auth provider and login

`GuruTvapayClient`'s constructor state (source lines 43-54), `_authHeader`
(lines 63-67) and `loginWithPassword` (lines 117-127). The cached token
stores exactly what the source assigns: `res.access_token` and the computed
`expires_at`, both JSON values. Header maps are association lists built
with JavaScript object-literal semantics (`objSet`/`objMerge` below). -/

/-- The environment selector; the constructor rejects anything else. -/
inductive Env where
  | uat : Env
  | live : Env
deriving DecidableEq

/-- `ENV_PREFIXES` (source line 40). -/
def envPath : Env → String
  | .uat => "/uat_mode"
  | .live => "/live"

/-- The cached token `this.token = { access_token, expires_at }`; both
fields hold whatever JSON values the login response supplied. -/
structure Token where
  accessToken : JsonValue
  expiresAt : JsonValue

/-- The client instance's fields. -/
structure ClientState where
  env : Env
  apiKey : Option String
  clientId : Option String
  clientSecret : Option String
  root : String
  timeoutMs : Nat
  maxRetries : Nat
  backoffFactor : ℚ
  token : Option Token

/-- The dispatcher configuration carried by a client. -/
def cfgOf (st : ClientState) : Cfg :=
  ⟨st.timeoutMs, st.maxRetries, st.backoffFactor⟩

/-- `_authHeader` (source lines 63-67): a truthy `apiKey` always wins;
otherwise a cached token is used exactly when
`Date.now() / 1000 < this.token.expires_at - 10`; otherwise no header.
`nowMs` is `Date.now()`; the comparison coerces the stored expiry with
JS `ToNumber` (a `NaN` comparison is false). The function is pure: it
reads the state and returns only the header list. -/
def authHeaderM (st : ClientState) (nowMs : Nat) : List (String × String) :=
  if jsTruthyStr st.apiKey then
    [("Authorization", "Bearer " ++ st.apiKey.getD "")]
  else
    match st.token with
    | some tok =>
      match jsToNumber tok.expiresAt with
      | some q =>
        if (nowMs : ℚ) / 1000 < q - 10 then
          [("Authorization", "Bearer " ++ jsToString tok.accessToken)]
        else []
      | none => []
    | none => []

/-- Login URL `${this.root}${ENV_PREFIXES[this.env]}/login` (line 119). -/
def loginUrl (st : ClientState) : String :=
  st.root ++ envPath st.env ++ "/login"

/-- The stored expiry (source line 124):
`res.expires_at || (Math.floor(Date.now() / 1000) + (res.expires_in || 0))`. -/
def expiryOf (res : JsonValue) (nowMs : Nat) : JsonValue :=
  jsOrOpt (getField res "expires_at")
    (jsAdd (.num ((nowMs / 1000 : ℕ) : ℚ))
           (jsOrOpt (getField res "expires_in") (.num 0)))

/-- `loginWithPassword(username, password, grant_type)` (source lines
117-127). Returns the client state after the call (unchanged on every
failure path, token replaced on success) together with the thrown error or
the returned token. The form body and its `Content-Type` header do not
influence the modelled observables; the transport abstracts the exchange. -/
def loginWithPassword (st : ClientState) (transport : Nat → FetchOutcome)
    (parseJson : String → Option JsonValue) (nowMs : Nat) :
    ClientState × Except SdkError Token :=
  if ¬ (jsTruthyStr st.clientId = true ∧ jsTruthyStr st.clientSecret = true) then
    (st, .error (.configError "clientId and clientSecret required"))
  else
    match (fetchWithRetry (cfgOf st) transport (loginUrl st) parseJson).outcome with
    | .error e => (st, .error e)
    | .ok res =>
      if ¬ (jsTruthy res = true ∧ jsTruthyOpt (getField res "access_token") = true) then
        (st, .error (.authenticationError "Login failed"))
      else
        let atv := (getField res "access_token").getD .null
        let tok : Token := ⟨atv, expiryOf res nowMs⟩
        ({st with token := some tok}, .ok tok)

/-! ## Object-literal header assembly

JavaScript object spread semantics: `objSet m k v` adds or overwrites one
binding (an existing key keeps its position, its value is replaced);
`objMerge a b` is `{ ...a, ...b }` for entry lists `a` and `b`. A caller's
header object is its entry list, whose keys are distinct by construction
of JS objects. -/

/-- Add or overwrite one key in an object's entry list. -/
def objSet : List (String × String) → String → String → List (String × String)
  | [], k, v => [(k, v)]
  | (k', v') :: t, k, v =>
    if k' = k then (k', v) :: t else (k', v') :: objSet t k v

/-- `{ ...a, ...b }`: fold the entries of `b` over `a`. -/
def objMerge (a b : List (String × String)) : List (String × String) :=
  b.foldl (fun m kv => objSet m kv.1 kv.2) a

/-- Headers of `createPayment` (source line 131):
`{ 'Content-Type': 'application/json', ...this._authHeader(), ...extraHeaders }`. -/
def createPaymentHeaders (st : ClientState) (nowMs : Nat)
    (extraHeaders : List (String × String)) : List (String × String) :=
  objMerge (objMerge [("Content-Type", "application/json")] (authHeaderM st nowMs))
    extraHeaders

/-- Headers of `request` (source lines 160-168): caller headers are spread
after the auth header; a `Content-Type` for the chosen body encoding is
then prepended with the merged headers spread over it, so a caller value
still wins. `jsonBody` and `data` matter only through their truthiness. -/
def requestHeaders (st : ClientState) (nowMs : Nat)
    (headers : List (String × String)) (jsonBody : Option JsonValue)
    (data : Option JsonValue) : List (String × String) :=
  let allHeaders := objMerge (authHeaderM st nowMs) headers
  if jsTruthyOpt jsonBody then
    objMerge [("Content-Type", "application/json")] allHeaders
  else if jsTruthyOpt data then
    objMerge [("Content-Type", "application/x-www-form-urlencoded")] allHeaders
  else allHeaders

/-! ## Supporting lemmas -/

/-- A bitwise OR of naturals is zero exactly when both sides are. -/
theorem lor_eq_zero_iff (m n : Nat) : m ||| n = 0 ↔ m = 0 ∧ n = 0 := by
  constructor
  · intro h
    constructor
    · refine Nat.eq_of_testBit_eq fun i => ?_
      have h1 : (m ||| n).testBit i = false := by rw [h]; exact Nat.zero_testBit i
      rw [Nat.testBit_lor] at h1
      simp only [Bool.or_eq_false_iff] at h1
      simp [h1.1, Nat.zero_testBit]
    · refine Nat.eq_of_testBit_eq fun i => ?_
      have h1 : (m ||| n).testBit i = false := by rw [h]; exact Nat.zero_testBit i
      rw [Nat.testBit_lor] at h1
      simp only [Bool.or_eq_false_iff] at h1
      simp [h1.2, Nat.zero_testBit]
  · rintro ⟨rfl, rfl⟩
    rfl

/-- The comparison pass counts exactly one step per zipped byte pair. -/
theorem tseAux_snd (l : List (Nat × Nat)) : (tseAux l).2 = l.length := by
  induction l with
  | nil => rfl
  | cons p t ih => simp [tseAux, ih]

/-- The XOR accumulator ends at zero exactly when every pair agrees. -/
theorem tseAux_fst_eq_zero_iff (l : List (Nat × Nat)) :
    (tseAux l).1 = 0 ↔ ∀ p ∈ l, p.1 = p.2 := by
  induction l with
  | nil => simp [tseAux]
  | cons p t ih =>
    simp only [tseAux, List.mem_cons]
    rw [lor_eq_zero_iff, Nat.xor_eq_zero]
    constructor
    · rintro ⟨h1, h2⟩ q hq
      rcases hq with rfl | hq
      · exact h1
      · exact ih.mp h2 q hq
    · intro h
      exact ⟨h p (Or.inl rfl), ih.mpr fun q hq => h q (Or.inr hq)⟩

/-- Equal-length lists whose zip is pointwise equal are equal. -/
theorem eq_of_zip_forall_eq :
    ∀ (a b : List Nat), a.length = b.length → (∀ p ∈ a.zip b, p.1 = p.2) → a = b
  | [], [], _, _ => rfl
  | [], _ :: _, h, _ => by simp at h
  | _ :: _, [], h, _ => by simp at h
  | x :: xs, y :: ys, h, hp => by
    have hx : x = y := hp (x, y) (by simp [List.zip])
    have ht : xs = ys := by
      refine eq_of_zip_forall_eq xs ys (by simpa using h) fun p hmem => ?_
      exact hp p (by simp [List.zip]; right; simpa using hmem)
    rw [hx, ht]

/-- Every pair in the zip of a list with itself is a repeated element. -/
theorem zip_self_forall_eq (a : List Nat) : ∀ p ∈ a.zip a, p.1 = p.2 := by
  induction a with
  | nil => simp
  | cons x xs ih =>
    intro p hp
    rw [List.zip_cons_cons, List.mem_cons] at hp
    rcases hp with rfl | hp
    · rfl
    · exact ih p hp

/-- Claim C9: the byte comparison in `verifyWebhook` (the modelled
`crypto.timingSafeEqual` on the decoded signature and digest buffers) is
correct — on equal-length buffers it returns true exactly when the byte
sequences coincide — and constant-time with respect to content: the number
of byte comparisons performed depends only on the buffer length, never on
where the first differing byte lies. -/
theorem claim_C9 :
    (∀ a b : List Nat, a.length = b.length →
      (timingSafeEqual a b = true ↔ a = b)) ∧
    (∀ a b c d : List Nat, a.length = b.length → c.length = d.length →
      a.length = c.length → tseSteps a b = tseSteps c d) := by
  constructor
  · intro a b hlen
    unfold timingSafeEqual
    rw [beq_iff_eq, tseAux_fst_eq_zero_iff]
    constructor
    · intro h
      exact eq_of_zip_forall_eq a b hlen h
    · rintro rfl
      exact zip_self_forall_eq a
  · intro a b c d hab hcd hac
    unfold tseSteps
    rw [tseAux_snd, tseAux_snd, List.length_zip, List.length_zip]
    omega

/-- Witness for C9 at concrete buffers: equal buffers compare true, and the
step count of a comparison that differs in the first byte equals that of a
comparison that differs in the last. -/
theorem claim_C9_witness :
    (([10, 20, 30] : List Nat).length = ([10, 20, 30] : List Nat).length ∧
      (timingSafeEqual [10, 20, 30] [10, 20, 30] = true ↔
        ([10, 20, 30] : List Nat) = [10, 20, 30])) ∧
    tseSteps [9, 20, 30] [10, 20, 30] = tseSteps [10, 20, 31] [10, 20, 30] :=
  ⟨⟨rfl, claim_C9.1 [10, 20, 30] [10, 20, 30] rfl⟩,
    claim_C9.2 [9, 20, 30] [10, 20, 30] [10, 20, 31] [10, 20, 30] rfl rfl rfl⟩

/-- First-match lookup in a header entry list, as JavaScript property
access reads an object whose entries are listed in insertion order. -/
def hLookup (k : String) : List (String × String) → Option String
  | [] => none
  | (k', v) :: t => if k' = k then some v else hLookup k t

/-- Keys of an entry list. -/
def objKeys (m : List (String × String)) : List String := m.map Prod.fst

/-- A key that looks up successfully is among the keys. -/
theorem mem_objKeys_of_hLookup_some (k v : String) :
    ∀ t : List (String × String), hLookup k t = some v → k ∈ objKeys t := by
  intro t
  induction t with
  | nil => intro h; simp [hLookup] at h
  | cons q r ih =>
    intro h
    by_cases hq : q.1 = k
    · exact List.mem_cons.mpr (Or.inl hq.symm)
    · simp only [hLookup, hq, if_false] at h
      exact List.mem_cons.mpr (Or.inr (ih h))

/-- Looking up a key after `objSet`: the set key maps to the new value,
every other key is untouched. -/
theorem hLookup_objSet (m : List (String × String)) (k k' v : String) :
    hLookup k (objSet m k' v) = if k' = k then some v else hLookup k m := by
  induction m with
  | nil => simp [objSet, hLookup]
  | cons p t ih =>
    by_cases h1 : p.1 = k'
    · subst h1
      by_cases h2 : p.1 = k <;> simp [objSet, hLookup, h2]
    · by_cases h2 : p.1 = k
      · subst h2
        have hne : ¬ k' = p.1 := fun h => h1 h.symm
        simp [objSet, hLookup, h1, hne]
      · simp [objSet, hLookup, h1, h2, ih]

/-- Keys absent from `b` look up through `objMerge a b` into `a`. -/
theorem hLookup_objMerge_of_notin (b : List (String × String)) :
    ∀ (a : List (String × String)) (k : String), hLookup k b = none →
      hLookup k (objMerge a b) = hLookup k a := by
  induction b with
  | nil => intro a k _; rfl
  | cons p t ih =>
    intro a k hk
    by_cases h : p.1 = k
    · simp [hLookup, h] at hk
    · simp only [hLookup, h, if_false] at hk
      simp only [objMerge, List.foldl_cons]
      rw [show List.foldl (fun m kv => objSet m kv.1 kv.2) (objSet a p.1 p.2) t =
            objMerge (objSet a p.1 p.2) t from rfl]
      rw [ih (objSet a p.1 p.2) k hk, hLookup_objSet, if_neg h]

/-- A binding present in `b` (whose keys are distinct, as in a JS object)
survives `objMerge a b` whatever `a` holds. -/
theorem hLookup_objMerge_of_mem (b : List (String × String)) :
    ∀ (a : List (String × String)) (k v : String),
      (objKeys b).Nodup → hLookup k b = some v →
      hLookup k (objMerge a b) = some v := by
  induction b with
  | nil => intro a k v _ h; simp [hLookup] at h
  | cons p t ih =>
    intro a k v hnd hk
    simp only [objKeys, List.map_cons, List.nodup_cons] at hnd
    simp only [objMerge, List.foldl_cons]
    rw [show List.foldl (fun m kv => objSet m kv.1 kv.2) (objSet a p.1 p.2) t =
          objMerge (objSet a p.1 p.2) t from rfl]
    by_cases h : p.1 = k
    · subst h
      simp only [hLookup, if_pos rfl] at hk
      have htnone : hLookup p.1 t = none := by
        rcases hlk : hLookup p.1 t with _ | w
        · rfl
        · exact absurd (mem_objKeys_of_hLookup_some p.1 w t hlk) hnd.1
      rw [hLookup_objMerge_of_notin t (objSet a p.1 p.2) p.1 htnone,
        hLookup_objSet, if_pos rfl]
      exact hk ▸ rfl
    · simp only [hLookup, h, if_false] at hk
      exact ih (objSet a p.1 p.2) k v hnd.2 hk

/-- `objSet` either rewrites an existing key in place or appends a fresh
one. -/
theorem objKeys_objSet (k v : String) :
    ∀ m : List (String × String), objKeys (objSet m k v) =
      if k ∈ objKeys m then objKeys m else objKeys m ++ [k] := by
  intro m
  induction m with
  | nil => simp [objKeys, objSet]
  | cons p t ih =>
    by_cases h : p.1 = k
    · simp [objKeys, objSet, h]
    · have hne : ¬ k = p.1 := fun hk => h hk.symm
      simp only [objKeys, objSet, h, if_false, List.map_cons]
      rw [show (objSet t k v).map Prod.fst = objKeys (objSet t k v) from rfl, ih]
      by_cases hmem : k ∈ objKeys t
      · simp only [objKeys] at hmem
        simp [hmem, List.mem_cons, hne, objKeys]
      · simp only [objKeys] at hmem
        simp [hmem, List.mem_cons, hne, objKeys]

/-- `objSet` preserves distinctness of keys. -/
theorem nodup_objKeys_objSet (m : List (String × String)) (k v : String)
    (h : (objKeys m).Nodup) : (objKeys (objSet m k v)).Nodup := by
  rw [objKeys_objSet]
  by_cases hmem : k ∈ objKeys m
  · simpa [hmem] using h
  · simp only [hmem, if_false]
    rw [List.nodup_append]
    exact ⟨h, List.nodup_singleton k, by simpa using hmem⟩

/-- `objMerge` preserves distinctness of the accumulator's keys. -/
theorem nodup_objKeys_objMerge (b : List (String × String)) :
    ∀ a : List (String × String), (objKeys a).Nodup →
      (objKeys (objMerge a b)).Nodup := by
  induction b with
  | nil => intro a h; exact h
  | cons p t ih =>
    intro a h
    simp only [objMerge, List.foldl_cons]
    exact ih (objSet a p.1 p.2) (nodup_objKeys_objSet a p.1 p.2 h)

/-- The auth provider emits at most one header, so its keys are distinct. -/
theorem nodup_objKeys_authHeaderM (st : ClientState) (nowMs : Nat) :
    (objKeys (authHeaderM st nowMs)).Nodup := by
  unfold authHeaderM
  split
  · simp [objKeys]
  · split
    · split
      · split <;> simp [objKeys]
      · simp [objKeys]
    · simp [objKeys]

/-- Claim C10: in both `request` and `createPayment`, caller-supplied
headers are spread after the automatically generated ones, so a caller
binding for any colliding name (`Authorization` from the auth provider,
`Content-Type` from the body encoding) is the value that reaches the
outgoing request. -/
theorem claim_C10 :
    (∀ (st : ClientState) (nowMs : Nat) (extraHeaders : List (String × String))
        (k v : String), (objKeys extraHeaders).Nodup →
      hLookup k extraHeaders = some v →
      hLookup k (createPaymentHeaders st nowMs extraHeaders) = some v) ∧
    (∀ (st : ClientState) (nowMs : Nat) (headers : List (String × String))
        (jsonBody data : Option JsonValue) (k v : String),
      (objKeys headers).Nodup →
      hLookup k headers = some v →
      hLookup k (requestHeaders st nowMs headers jsonBody data) = some v) := by
  constructor
  · intro st nowMs extraHeaders k v hnd hk
    exact hLookup_objMerge_of_mem extraHeaders _ k v hnd hk
  · intro st nowMs headers jsonBody data k v hnd hk
    have hall : hLookup k (objMerge (authHeaderM st nowMs) headers) = some v :=
      hLookup_objMerge_of_mem headers _ k v hnd hk
    have hallnd : (objKeys (objMerge (authHeaderM st nowMs) headers)).Nodup :=
      nodup_objKeys_objMerge headers (authHeaderM st nowMs)
        (nodup_objKeys_authHeaderM st nowMs)
    unfold requestHeaders
    split
    · exact hLookup_objMerge_of_mem _ _ k v hallnd hall
    · split
      · exact hLookup_objMerge_of_mem _ _ k v hallnd hall
      · exact hall

/-- A client with only an API key, for concrete header evaluations. -/
def stKeyed : ClientState :=
  ⟨.uat, some "K", none, none, "https://api.gurutvapay.com", 30000, 3, 1/2, none⟩

/-- Witness for C10: a caller `Authorization` header overrides the API-key
bearer header in `createPayment`, and a caller `Content-Type` overrides the
JSON content type in `request`. -/
theorem claim_C10_witness :
    ((objKeys [("Authorization", "Bearer mine")]).Nodup ∧
      hLookup "Authorization"
        (createPaymentHeaders stKeyed 0 [("Authorization", "Bearer mine")]) =
        some "Bearer mine") ∧
    hLookup "Content-Type"
      (requestHeaders stKeyed 0 [("Content-Type", "text/plain")]
        (some (.obj [])) none) = some "text/plain" :=
  ⟨⟨by decide,
    claim_C10.1 stKeyed 0 [("Authorization", "Bearer mine")]
      "Authorization" "Bearer mine" (by decide) (by decide)⟩,
    claim_C10.2 stKeyed 0 [("Content-Type", "text/plain")] (some (.obj [])) none
      "Content-Type" "text/plain" (by decide) (by decide)⟩

/-- Claim C6: `_authHeader` selection. A truthy static API key always wins,
even when a valid cached token exists; otherwise the cached token's bearer
header is attached exactly when a token exists and, coercing its stored
expiry to a number, more than 10 seconds remain before expiry
(`Date.now()/1000 < expires_at - 10`); in every other case (no token,
expired token, non-numeric expiry) the header set is empty. The function
reads the state and returns only a header list, so it mutates nothing. -/
theorem claim_C6 (st : ClientState) (nowMs : Nat) :
    (∀ k : String, st.apiKey = some k → k ≠ "" →
      authHeaderM st nowMs = [("Authorization", "Bearer " ++ k)]) ∧
    (jsTruthyStr st.apiKey = false →
      ∀ tok, st.token = some tok →
        (∀ q : ℚ, jsToNumber tok.expiresAt = some q →
          ((nowMs : ℚ) / 1000 < q - 10 →
            authHeaderM st nowMs =
              [("Authorization", "Bearer " ++ jsToString tok.accessToken)]) ∧
          (¬ ((nowMs : ℚ) / 1000 < q - 10) → authHeaderM st nowMs = [])) ∧
        (jsToNumber tok.expiresAt = none → authHeaderM st nowMs = [])) ∧
    (jsTruthyStr st.apiKey = false → st.token = none → authHeaderM st nowMs = []) := by
  refine ⟨?_, ?_, ?_⟩
  · intro k hk hne
    have ht : jsTruthyStr st.apiKey = true := by simp [jsTruthyStr, hk, hne]
    unfold authHeaderM
    rw [ht]
    simp [hk]
  · intro hfalse tok htok
    constructor
    · intro q hq
      constructor
      · intro hlt
        unfold authHeaderM
        rw [hfalse]
        simp [htok, hq, hlt]
      · intro hge
        unfold authHeaderM
        rw [hfalse]
        simp [htok, hq, hge]
    · intro hnan
      unfold authHeaderM
      rw [hfalse]
      simp [htok, hnan]
  · intro hfalse htok
    unfold authHeaderM
    rw [hfalse]
    simp [htok]

/-- A client holding both an API key and a still-valid cached token. -/
def stBoth : ClientState :=
  ⟨.uat, some "K", none, none, "https://api.gurutvapay.com", 30000, 3, 1/2,
    some ⟨.str "T", .num 1000000⟩⟩

/-- A token whose expiry lies in the past relative to the witness clock. -/
def tokExpired : Token := ⟨.str "T", .num 100⟩

/-- A client with no API key and only the expired token. -/
def stExpired : ClientState :=
  ⟨.uat, none, none, none, "https://api.gurutvapay.com", 30000, 3, 1/2,
    some tokExpired⟩

/-- Witness for C6: with both an API key and a valid token configured, the
API-key bearer header is selected; with only an expired token, the header
set is empty. -/
theorem claim_C6_witness :
    (stBoth.apiKey = some "K" ∧ "K" ≠ "" ∧
      authHeaderM stBoth 5000000 = [("Authorization", "Bearer K")]) ∧
    (jsTruthyStr stExpired.apiKey = false ∧ stExpired.token = some tokExpired ∧
      jsToNumber tokExpired.expiresAt = some 100 ∧
      ¬ ((5000000 : ℚ) / 1000 < 100 - 10) ∧
      authHeaderM stExpired 5000000 = []) :=
  ⟨⟨rfl, by decide, (claim_C6 stBoth 5000000).1 "K" rfl (by decide)⟩,
    ⟨rfl, rfl, rfl, by norm_num,
      (((claim_C6 stExpired 5000000).2.1 rfl tokExpired rfl).1 100
        rfl).2 (by norm_num)⟩⟩

/-! ## Dispatcher behaviour: claims C1, C2, C5 and C8 -/

/-- A `JSON.parse` stand-in that always fails, so 2xx bodies come back in
the `{ raw: text }` wrapper; the dispatcher claims below do not depend on
parsing. -/
def pj0 : String → Option JsonValue := fun _ => none

/-- One retry allowed, backoff factor 1/2. -/
def cfgC1 : Cfg := ⟨30000, 1, 1/2⟩

/-- A transport answering 401 with body text `denied` on every exchange. -/
def tC1 : Nat → FetchOutcome := fun _ => .resp 401 none "denied"

/-- Claim C1 (divergence evaluation): with `maxRetries = 1` and a transport
answering 401 on every exchange, `_fetchWithRetry` performs 2 fetch
exchanges with a 500 ms backoff sleep between them, because the `AuthError`
thrown inside the `try` block is caught by the same attempt's `catch`
clause — the one the source comments as handling "network / abort errors" —
which retries every caught error while `attempt <= maxRetries`. The final
outcome is still the `AuthError` carrying status and body. The claimed
behaviour (exactly 1 attempt, no retry) does not hold. -/
theorem claim_C1_code_eval :
    (fetchWithRetry cfgC1 tC1 "https://api.gurutvapay.com/x" pj0).attempts = 2 ∧
    (fetchWithRetry cfgC1 tC1 "https://api.gurutvapay.com/x" pj0).waitsMs = [500] ∧
    (fetchWithRetry cfgC1 tC1 "https://api.gurutvapay.com/x" pj0).outcome =
      .error (.authError 401 "denied") :=
  ⟨by decide,
   by simp [fetchWithRetry, fetchGo, cfgC1, tC1]; norm_num,
   by rfl⟩

/-- Three retries allowed, backoff factor 1/2. -/
def cfgC2 : Cfg := ⟨30000, 3, 1/2⟩

/-- A transport answering 429 with `Retry-After: 2` once, then 200. -/
def tC2 : Nat → FetchOutcome := fun n =>
  if n = 0 then .resp 429 (some "2") "slow" else .resp 200 none "ok"

/-- Counterexample to claim C2: on a 429 with `Retry-After: 2` and retry
budget remaining, the dispatcher sleeps exactly 2 milliseconds — the
`parseInt` result used directly as a millisecond count — rather than the
claimed `max(2 s, backoff)`; every recorded wait is under 2 seconds. -/
theorem claim_C2_counterexample :
    (fetchWithRetry cfgC2 tC2 "u" pj0).waitsMs = [2] ∧
    ∀ w ∈ (fetchWithRetry cfgC2 tC2 "u" pj0).waitsMs, w < 2 * 1000 := by
  have h : (fetchWithRetry cfgC2 tC2 "u" pj0).waitsMs = [2] := by
    simp [fetchWithRetry, fetchGo, cfgC2, tC2, jsParseInt]
  refine ⟨h, ?_⟩
  rw [h]
  intro w hw
  rw [List.mem_singleton] at hw
  rw [hw]
  norm_num

/-- Claim C2 as amended: on a 429 response carrying a truthy `Retry-After`
with the attempt count within `maxRetries`, the wait before the retry is
`parseInt(Retry-After)` milliseconds when that parses to a nonzero
integer, and the exponential backoff `backoffFactor * 2^(attempt) * 1000`
milliseconds when `Retry-After` is unparsable (or parses to 0); the
parsed seconds value is not converted to milliseconds and no maximum with
the backoff term is taken. -/
theorem claim_C2_amended (cfg : Cfg) (t : Nat → FetchOutcome) (url : String)
    (pj : String → Option JsonValue) (attempt fuel : Nat) (ra body : String)
    (h1 : t attempt = .resp 429 (some ra) body) (h2 : ra ≠ "")
    (h3 : attempt + 1 ≤ cfg.maxRetries) :
    (fetchGo cfg t url pj attempt (fuel + 1)).waitsMs.head? =
      some (match jsParseInt ra with
            | some n => if n = 0 then cfg.backoffFactor * 2 ^ attempt * 1000 else (n : ℚ)
            | none => cfg.backoffFactor * 2 ^ attempt * 1000) := by
  simp only [fetchGo, h1]
  norm_num [h2, h3]

/-- Witness for the amended C2 at `Retry-After: 2`: the first recorded wait
is 2 (milliseconds). -/
theorem claim_C2_amended_witness :
    tC2 0 = .resp 429 (some "2") "slow" ∧ "2" ≠ "" ∧ 0 + 1 ≤ cfgC2.maxRetries ∧
    (fetchGo cfgC2 tC2 "u" pj0 0 4).waitsMs.head? = some 2 :=
  ⟨rfl, by decide, by decide,
    (claim_C2_amended cfgC2 tC2 "u" pj0 0 3 "2" "slow" rfl (by decide)
        (by decide)).trans
      (by rw [show jsParseInt "2" = some 2 from by decide]; norm_num)⟩

/-- On a transport that answers 500 on every exchange, the dispatcher runs
the retry loop to exhaustion: with the invariant `attempt + fuel =
maxRetries + 1` it performs exactly `fuel` exchanges, sleeps the
exponential backoff before each retry, clears every attempt's timer, and
ends with the `HTTP 500` error of the final exchange. -/
theorem fetchGo_all500 (cfg : Cfg) (t : Nat → FetchOutcome) (url : String)
    (pj : String → Option JsonValue) (ra : Nat → Option String) (b : Nat → String)
    (hb : ∀ n, t n = .resp 500 (ra n) (b n)) :
    ∀ fuel attempt, attempt + fuel = cfg.maxRetries + 1 → 1 ≤ fuel →
      fetchGo cfg t url pj attempt fuel =
        ⟨fuel,
         (List.range (fuel - 1)).map (fun i => cfg.backoffFactor * 2 ^ (attempt + i) * 1000),
         List.replicate fuel true,
         .error (.httpError 500 (b cfg.maxRetries))⟩ := by
  intro fuel
  induction fuel with
  | zero => intro attempt _ h1; omega
  | succ f ih =>
    intro attempt hsum _
    simp only [fetchGo]
    rw [hb attempt]
    norm_num
    rcases Nat.eq_zero_or_pos f with rfl | hf
    · have hmax : attempt = cfg.maxRetries := by omega
      have hc : ¬ (attempt + 1 ≤ cfg.maxRetries) := by omega
      simp [hc, hmax]
    · have hc : attempt + 1 ≤ cfg.maxRetries := by omega
      obtain ⟨k, rfl⟩ : ∃ k, f = k + 1 := ⟨f - 1, by omega⟩
      rw [ih (attempt + 1) (by omega) (by omega)]
      simp only [hc, if_true]
      congr 1
      rw [List.range_succ_eq_map, List.map_cons, List.map_map]
      congr 1
      simp only [Nat.add_sub_cancel]
      refine List.map_congr_left fun i _ => ?_
      simp only [Function.comp_apply, Nat.succ_eq_add_one]
      have hadd : attempt + 1 + i = attempt + (i + 1) := by omega
      rw [hadd]

/-- Claim C5: when the transport returns 500 on every attempt, the
dispatcher performs exactly `maxRetries + 1` fetch exchanges, fails with
the `HTTP 500` error of the last response, and the delay before the n-th
retry is exactly `backoffFactor * 2^(n-1)` seconds (recorded here in
milliseconds for `n - 1 = 0, 1, ...`), deterministically with no jitter. -/
theorem claim_C5 (cfg : Cfg) (t : Nat → FetchOutcome) (url : String)
    (pj : String → Option JsonValue) (ra : Nat → Option String) (b : Nat → String)
    (hb : ∀ n, t n = .resp 500 (ra n) (b n)) :
    (fetchWithRetry cfg t url pj).attempts = cfg.maxRetries + 1 ∧
    (fetchWithRetry cfg t url pj).outcome = .error (.httpError 500 (b cfg.maxRetries)) ∧
    (fetchWithRetry cfg t url pj).waitsMs =
      (List.range cfg.maxRetries).map (fun n => cfg.backoffFactor * 2 ^ n * 1000) := by
  have h := fetchGo_all500 cfg t url pj ra b hb (cfg.maxRetries + 1) 0 (by omega) (by omega)
  unfold fetchWithRetry
  rw [h]
  refine ⟨rfl, rfl, ?_⟩
  simp

/-- Two retries allowed, backoff factor 1/2. -/
def cfgW5 : Cfg := ⟨30000, 2, 1/2⟩

/-- A transport answering 500 with body `oops` on every exchange. -/
def tW5 : Nat → FetchOutcome := fun _ => .resp 500 none "oops"

/-- Witness for C5: with `maxRetries = 2` and permanent 500s, three
exchanges happen, the waits are 500 ms then 1000 ms, and the final error is
`HTTP 500: oops`. -/
theorem claim_C5_witness :
    (∀ n, tW5 n = .resp 500 none "oops") ∧
    (fetchWithRetry cfgW5 tW5 "u" pj0).attempts = 3 ∧
    (fetchWithRetry cfgW5 tW5 "u" pj0).outcome = .error (.httpError 500 "oops") ∧
    (fetchWithRetry cfgW5 tW5 "u" pj0).waitsMs = [500, 1000] := by
  have h := claim_C5 cfgW5 tW5 "u" pj0 (fun _ => none) (fun _ => "oops") (fun n => rfl)
  refine ⟨fun n => rfl, h.1, h.2.1, h.2.2.trans ?_⟩
  norm_num [cfgW5, List.range_succ]

/-- No retries allowed. -/
def cfgC8 : Cfg := ⟨30000, 0, 1/2⟩

/-- A transport whose exchange itself always rejects. -/
def tC8 : Nat → FetchOutcome := fun _ => .err "ECONNRESET"

/-- Counterexample to claim C8: when the fetch exchange itself rejects, the
attempt exits through the `catch` clause without ever reaching
`clearTimeout(id)`, so that attempt's timer is left uncleared — the claim
that the timer is cleared on every exit path fails on the transport-failure
path. -/
theorem claim_C8_counterexample :
    (fetchWithRetry cfgC8 tC8 "u" pj0).timerCleared = [false] ∧
    ¬ (∀ c ∈ (fetchWithRetry cfgC8 tC8 "u" pj0).timerCleared, c = true) := by
  refine ⟨by decide, ?_⟩
  intro hall
  have := hall false (by decide)
  simp at this

/-- Claim C8 as amended: on every attempt whose exchange resolves to an
HTTP response — success or any classified failure, retried or terminal —
the timeout timer is cleared (`clearTimeout` runs before the status is even
inspected); only an attempt whose exchange itself rejects leaves its timer
uncleared. -/
theorem claim_C8_amended (cfg : Cfg) (t : Nat → FetchOutcome) (url : String)
    (pj : String → Option JsonValue)
    (h : ∀ n, ∃ s r bd, t n = FetchOutcome.resp s r bd) :
    ∀ c ∈ (fetchWithRetry cfg t url pj).timerCleared, c = true := by
  have main : ∀ fuel attempt c,
      c ∈ (fetchGo cfg t url pj attempt fuel).timerCleared → c = true := by
    intro fuel
    induction fuel with
    | zero => intro attempt c hc; simp [fetchGo] at hc
    | succ f ih =>
      intro attempt c hc
      obtain ⟨s, r, bd, ht⟩ := h attempt
      simp only [fetchGo, ht] at hc
      repeat' split at hc
      all_goals
        rcases List.mem_cons.mp hc with rfl | hmem
      all_goals first
        | rfl
        | exact ih _ _ hmem
        | simp at hmem
  exact fun c hc => main (cfg.maxRetries + 1) 0 c hc

/-- Witness for the amended C8: on a transport producing HTTP responses on
both attempts (here 401 twice, including the retried classified failure),
every attempt's timer is cleared. -/
theorem claim_C8_amended_witness :
    (∀ n, ∃ s r bd, tC1 n = FetchOutcome.resp s r bd) ∧
    (fetchWithRetry cfgC1 tC1 "u" pj0).timerCleared = [true, true] ∧
    ∀ c ∈ (fetchWithRetry cfgC1 tC1 "u" pj0).timerCleared, c = true :=
  ⟨fun n => ⟨401, none, "denied", rfl⟩, by decide,
    claim_C8_amended cfgC1 tC1 "u" pj0 (fun n => ⟨401, none, "denied", rfl⟩)⟩

/-! ## Login: claim C7 -/

/-- When the response's `expires_at` is present and truthy (a nonzero
number), it is stored as-is. -/
theorem expiryOf_truthy (res : JsonValue) (nowMs : Nat) (q : ℚ)
    (hq : getField res "expires_at" = some (.num q)) (h0 : q ≠ 0) :
    expiryOf res nowMs = .num q := by
  unfold expiryOf
  rw [hq]
  simp [jsOrOpt, jsTruthy, h0]

/-- When `expires_at` is absent or zero, the stored expiry falls back to
`floor(now/1000) + expires_in`, with `expires_in` defaulting to 0. -/
theorem expiryOf_fallback (res : JsonValue) (nowMs : Nat)
    (hat : getField res "expires_at" = none ∨ getField res "expires_at" = some (.num 0)) :
    (∀ r : ℚ, getField res "expires_in" = some (.num r) →
      expiryOf res nowMs = .num (((nowMs / 1000 : ℕ) : ℚ) + r)) ∧
    (getField res "expires_in" = none →
      expiryOf res nowMs = .num ((nowMs / 1000 : ℕ) : ℚ)) := by
  constructor
  · intro r hr
    have hin : jsOrOpt (getField res "expires_in") (.num 0) = .num r := by
      rw [hr]
      by_cases hr0 : r = 0
      · simp [jsOrOpt, jsTruthy, hr0]
      · simp [jsOrOpt, jsTruthy, hr0]
    unfold expiryOf
    rw [hin]
    rcases hat with hat | hat <;> rw [hat] <;> simp [jsOrOpt, jsTruthy, jsAdd]
  · intro hin
    have hin0 : jsOrOpt (getField res "expires_in") (.num 0) = .num 0 := by
      rw [hin]
      rfl
    unfold expiryOf
    rw [hin0]
    rcases hat with hat | hat <;> rw [hat] <;> simp [jsOrOpt, jsTruthy, jsAdd]

/-- The success path of `loginWithPassword`: with credentials configured,
a dispatched response and a truthy access token, the stored token is
replaced by the response's token with the computed expiry. -/
theorem loginWithPassword_success (st : ClientState) (t : Nat → FetchOutcome)
    (pj : String → Option JsonValue) (nowMs : Nat) (res atv : JsonValue)
    (hid : jsTruthyStr st.clientId = true) (hsec : jsTruthyStr st.clientSecret = true)
    (hres : (fetchWithRetry (cfgOf st) t (loginUrl st) pj).outcome = .ok res)
    (hrt : jsTruthy res = true)
    (hatv : getField res "access_token" = some atv) (hat : jsTruthy atv = true) :
    loginWithPassword st t pj nowMs =
      ({st with token := some ⟨atv, expiryOf res nowMs⟩},
        .ok ⟨atv, expiryOf res nowMs⟩) := by
  unfold loginWithPassword
  rw [if_neg (by simp [hid, hsec])]
  simp only [hres]
  rw [if_neg (by simp [hrt, jsTruthyOpt, hatv, hat])]
  simp [hatv]

/-- A login response carrying `expires_at: 0` alongside `expires_in: 100`. -/
def resC7 : JsonValue :=
  .obj [("access_token", .str "tok"), ("expires_at", .num 0), ("expires_in", .num 100)]

/-- A client configured for the OAuth password grant. -/
def stC7 : ClientState :=
  ⟨.uat, none, some "id", some "sec", "https://api.gurutvapay.com", 30000, 3, 1/2, none⟩

/-- A transport answering the login exchange with 200 and body `LOGIN`. -/
def tC7 : Nat → FetchOutcome := fun _ => .resp 200 none "LOGIN"

/-- `JSON.parse` for the login body above. -/
def pjC7 : String → Option JsonValue := fun s => if s = "LOGIN" then some resC7 else none

/-- Counterexample to claim C7: the login response carries the absolute
`expires_at: 0` — present — yet the stored token's expiry is
`floor(now/1000) + expires_in = 5100`, not 0: the source computes
`res.expires_at || (now + expires_in)` and `||` treats the
present-but-zero value as absent. -/
theorem claim_C7_counterexample :
    getField resC7 "expires_at" = some (.num 0) ∧
    (loginWithPassword stC7 tC7 pjC7 5000000).1.token =
      some ⟨.str "tok", .num (((5000000 / 1000 : ℕ) : ℚ) + 100)⟩ ∧
    (((5000000 / 1000 : ℕ) : ℚ) + 100) = 5100 ∧
    JsonValue.num 5100 ≠ JsonValue.num 0 :=
  ⟨rfl, rfl, by norm_num, by intro h; cases h⟩

/-- Claim C7 as amended: `loginWithPassword` fails with the configuration
error when `clientId` or `clientSecret` is missing; propagates the
dispatcher's error unchanged when the dispatch fails; fails with the
authentication error `Login failed` when the response lacks an access
token; and on success replaces the stored token with one whose expiry is
the response's `expires_at` when present and truthy (nonzero), otherwise
`floor(now/1000) + expires_in` with `expires_in` defaulting to 0 when
absent. On every failure path the returned state — token included — is
the unchanged input state. -/
theorem claim_C7_amended (st : ClientState) (t : Nat → FetchOutcome)
    (pj : String → Option JsonValue) (nowMs : Nat) :
    ((st.clientId = none ∨ st.clientSecret = none) →
      loginWithPassword st t pj nowMs =
        (st, .error (.configError "clientId and clientSecret required"))) ∧
    (jsTruthyStr st.clientId = true → jsTruthyStr st.clientSecret = true →
      (∀ e, (fetchWithRetry (cfgOf st) t (loginUrl st) pj).outcome = .error e →
        loginWithPassword st t pj nowMs = (st, .error e)) ∧
      (∀ res, (fetchWithRetry (cfgOf st) t (loginUrl st) pj).outcome = .ok res →
        (getField res "access_token" = none →
          loginWithPassword st t pj nowMs =
            (st, .error (.authenticationError "Login failed"))) ∧
        (∀ atv, getField res "access_token" = some atv → jsTruthy atv = true →
          jsTruthy res = true →
          (∀ q : ℚ, getField res "expires_at" = some (.num q) → q ≠ 0 →
            loginWithPassword st t pj nowMs =
              ({st with token := some ⟨atv, .num q⟩}, .ok ⟨atv, .num q⟩)) ∧
          ((getField res "expires_at" = none ∨
              getField res "expires_at" = some (.num 0)) →
            (∀ r : ℚ, getField res "expires_in" = some (.num r) →
              loginWithPassword st t pj nowMs =
                ({st with token := some ⟨atv, .num (((nowMs / 1000 : ℕ) : ℚ) + r)⟩},
                 .ok ⟨atv, .num (((nowMs / 1000 : ℕ) : ℚ) + r)⟩)) ∧
            (getField res "expires_in" = none →
              loginWithPassword st t pj nowMs =
                ({st with token := some ⟨atv, .num ((nowMs / 1000 : ℕ) : ℚ)⟩},
                 .ok ⟨atv, .num ((nowMs / 1000 : ℕ) : ℚ)⟩)))))) := by
  constructor
  · intro hmiss
    have hfalse : ¬ (jsTruthyStr st.clientId = true ∧
        jsTruthyStr st.clientSecret = true) := by
      rcases hmiss with hm | hm <;> simp [jsTruthyStr, hm]
    simp [loginWithPassword, hfalse]
  · intro hid hsec
    constructor
    · intro e he
      unfold loginWithPassword
      rw [if_neg (by simp [hid, hsec])]
      simp only [he]
    · intro res hres
      constructor
      · intro hnone
        unfold loginWithPassword
        rw [if_neg (by simp [hid, hsec])]
        simp only [hres]
        rw [if_pos (by simp [hnone, jsTruthyOpt])]
      · intro atv hatv htruthy hrestruthy
        have hsucc := loginWithPassword_success st t pj nowMs res atv
          hid hsec hres hrestruthy hatv htruthy
        refine ⟨?_, ?_⟩
        · intro q hq hqne
          rw [hsucc, expiryOf_truthy res nowMs q hq hqne]
        · intro hat
          refine ⟨?_, ?_⟩
          · intro r hr
            rw [hsucc, (expiryOf_fallback res nowMs hat).1 r hr]
          · intro hin
            rw [hsucc, (expiryOf_fallback res nowMs hat).2 hin]

/-- A login response with a truthy absolute expiry. -/
def resW7 : JsonValue :=
  .obj [("access_token", .str "tok"), ("expires_at", .num 99999)]

/-- `JSON.parse` for the witness login body. -/
def pjW7 : String → Option JsonValue := fun s => if s = "LOGIN" then some resW7 else none

/-- Witness for the amended C7: a successful login against a response with
`expires_at: 99999` stores exactly that expiry, replacing the (empty)
token. -/
theorem claim_C7_amended_witness :
    jsTruthyStr stC7.clientId = true ∧ jsTruthyStr stC7.clientSecret = true ∧
    (fetchWithRetry (cfgOf stC7) tC7 (loginUrl stC7) pjW7).outcome = .ok resW7 ∧
    getField resW7 "access_token" = some (.str "tok") ∧
    getField resW7 "expires_at" = some (.num 99999) ∧
    loginWithPassword stC7 tC7 pjW7 5000000 =
      ({stC7 with token := some ⟨.str "tok", .num 99999⟩},
        .ok ⟨.str "tok", .num 99999⟩) :=
  ⟨by decide, by decide, rfl, rfl, rfl,
    ((((claim_C7_amended stC7 tC7 pjW7 5000000).2 (by decide) (by decide)).2
        resW7 rfl).2 (.str "tok") rfl (by decide) (by decide)).1 99999 rfl
      (by norm_num)⟩

/-! ## Webhook verifier: claims C3 and C4 -/

/-- Encoding a nibble and reading it back is the identity. -/
theorem hexDigitVal_hexCharAux : ∀ m < 16, hexDigitVal (hexCharAux m) = some m := by
  decide

/-- Hex characters are never `s` (so no hex string starts the `sha256=`
tag) and never `=`. -/
theorem hexCharAux_ne : ∀ m < 16, hexCharAux m ≠ 's' ∧ hexCharAux m ≠ '=' := by
  decide

/-- Hex encoding yields two characters per byte. -/
theorem hexEncodeL_length : ∀ bytes : List Nat,
    (hexEncodeL bytes).length = 2 * bytes.length := by
  intro bytes
  induction bytes with
  | nil => rfl
  | cons b t ih =>
    simp [hexEncodeL, ih]
    omega

/-- Hex decoding inverts hex encoding of genuine bytes. -/
theorem bufferFromHex_hexEncodeL :
    ∀ bytes : List Nat, (∀ b ∈ bytes, b < 256) →
      bufferFromHex (hexEncodeL bytes) = bytes := by
  intro bytes
  induction bytes with
  | nil => intro _; rfl
  | cons b t ih =>
    intro hb
    have hblt : b < 256 := hb b (List.mem_cons_self b t)
    have e1 : hexDigitVal (hexChar (b / 16)) = some (b / 16) := by
      unfold hexChar
      rw [hexDigitVal_hexCharAux ((b / 16) % 16) (Nat.mod_lt _ (by omega))]
      rw [Nat.mod_eq_of_lt (by omega)]
    have e2 : hexDigitVal (hexChar (b % 16)) = some (b % 16) := by
      unfold hexChar
      rw [hexDigitVal_hexCharAux ((b % 16) % 16) (Nat.mod_lt _ (by omega))]
      rw [Nat.mod_eq_of_lt (Nat.mod_lt _ (by omega))]
    simp only [hexEncodeL, bufferFromHex, e1, e2]
    rw [ih (fun x hx => hb x (List.mem_cons_of_mem b hx))]
    congr 1
    omega

/-- Each word's big-endian bytes are below 256. -/
theorem w4_bytes_lt (y : Nat) : ∀ x ∈ w4 y, x < 256 := by
  intro x hx
  simp only [w4, List.mem_cons, List.not_mem_nil, or_false] at hx
  rcases hx with rfl | rfl | rfl | rfl <;> exact Nat.mod_lt _ (by omega)

/-- A SHA-256 digest is 32 bytes long. -/
theorem sha256_length (m : List Nat) : (sha256 m).length = 32 := by
  simp [sha256, w4]

/-- A SHA-256 digest consists of genuine bytes. -/
theorem sha256_bytes_lt (m : List Nat) : ∀ x ∈ sha256 m, x < 256 := by
  intro x hx
  simp only [sha256, List.mem_append] at hx
  rcases hx with ((((((h | h) | h) | h) | h) | h) | h) | h <;>
    exact w4_bytes_lt _ x h

/-- An HMAC-SHA256 digest is 32 bytes long. -/
theorem hmacSha256_length (k m : List Nat) : (hmacSha256 k m).length = 32 := by
  unfold hmacSha256
  exact sha256_length _

/-- An HMAC-SHA256 digest consists of genuine bytes. -/
theorem hmacSha256_bytes_lt (k m : List Nat) : ∀ x ∈ hmacSha256 k m, x < 256 := by
  unfold hmacSha256
  exact sha256_bytes_lt _

/-- `split('=')` on a string without `=` yields the whole string. -/
theorem splitEq_no_eq : ∀ l : List Char, '=' ∉ l → splitEq l = [l] := by
  intro l
  induction l with
  | nil => intro _; rfl
  | cons c t ih =>
    intro h
    have hc : ¬ (c = '=') := fun hc => h (hc ▸ List.mem_cons_self c t)
    have ht : '=' ∉ t := fun hm => h (List.mem_cons_of_mem c hm)
    simp [splitEq, hc, ih ht]

/-- `split('=')` after a `=`-free portion splits exactly there. -/
theorem splitEq_append : ∀ (l1 l2 : List Char), '=' ∉ l1 →
    splitEq (l1 ++ '=' :: l2) = l1 :: splitEq l2 := by
  intro l1
  induction l1 with
  | nil =>
    intro l2 _
    simp [splitEq]
  | cons c t ih =>
    intro l2 h
    have hc : ¬ (c = '=') := fun hc => h (hc ▸ List.mem_cons_self c t)
    have ht : '=' ∉ t := fun hm => h (List.mem_cons_of_mem c hm)
    simp only [List.cons_append, splitEq, hc, if_false, List.append_eq, ih l2 ht]

/-- On equal-length buffers, the timing-safe comparison decides equality. -/
theorem timingSafeEqual_iff (a b : List Nat) (h : a.length = b.length) :
    timingSafeEqual a b = true ↔ a = b := by
  unfold timingSafeEqual
  rw [beq_iff_eq, tseAux_fst_eq_zero_iff]
  constructor
  · intro hz
    exact eq_of_zip_forall_eq a b h hz
  · rintro rfl
    exact zip_self_forall_eq a

/-- A hex encoding never starts with the `sha256=` tag: its first character
is a hex digit, never `s`. -/
theorem hasTag_hexEncodeL (bytes : List Nat) (h : bytes ≠ []) :
    hasTag (hexEncodeL bytes) = false := by
  cases bytes with
  | nil => exact absurd rfl h
  | cons b t =>
    simp only [hexEncodeL, hasTag, decide_eq_false_iff_not]
    intro heq
    rw [show (7 : Nat) = 6 + 1 from rfl, List.take_succ_cons] at heq
    injection heq with h1 _
    exact (hexCharAux_ne ((b / 16) % 16) (Nat.mod_lt _ (by omega))).1 h1

/-- A hex encoding never contains `=`. -/
theorem eq_not_mem_hexEncodeL : ∀ bytes : List Nat, '=' ∉ hexEncodeL bytes := by
  intro bytes
  induction bytes with
  | nil => simp [hexEncodeL]
  | cons b t ih =>
    simp only [hexEncodeL, List.mem_cons, not_or]
    refine ⟨?_, ?_, ih⟩
    · intro hh
      exact (hexCharAux_ne ((b / 16) % 16) (Nat.mod_lt _ (by omega))).2 hh.symm
    · intro hh
      exact (hexCharAux_ne ((b % 16) % 16) (Nat.mod_lt _ (by omega))).2 hh.symm

/-- The `sha256=` tag is transparent: for a nonempty, `=`-free remainder,
the tagged and untagged signatures verify identically. -/
theorem verifyWebhook_tag_equiv (p : List Nat) (s sig : String)
    (hne : '=' ∉ sig.data) (hsig : sig ≠ "") :
    verifyWebhook p (some ("sha256=" ++ sig)) s = verifyWebhook p (some sig) s := by
  have hx : ¬ ("sha256=" ++ sig) = "" := by
    intro h
    have hd := congrArg String.data h
    rw [String.data_append] at hd
    simp at hd
  have htagL : hasTag ("sha256=" ++ sig).data = true := by
    simp only [hasTag, String.data_append, decide_eq_true_eq]
    rw [show (7 : Nat) = ("sha256=".data).length from rfl, List.take_left]
  have htagR : hasTag sig.data = false := by
    simp only [hasTag, decide_eq_false_iff_not]
    intro hc
    apply hne
    have hm : '=' ∈ sig.data.take 7 := by
      rw [hc]
      decide
    exact List.take_subset 7 sig.data hm
  have hsplit : (splitEq ("sha256=" ++ sig).data).getD 1 [] = sig.data := by
    rw [String.data_append]
    rw [show "sha256=".data ++ sig.data = "sha256".data ++ '=' :: sig.data from rfl]
    rw [splitEq_append "sha256".data sig.data (by decide)]
    rw [splitEq_no_eq sig.data hne]
    rfl
  simp only [verifyWebhook, hx, hsig, if_false, htagL, htagR, if_true, hsplit,
    Bool.false_eq_true]

/-- For an untagged signature, `verifyWebhook` reduces to the length guard
and the timing-safe comparison against the digest bytes. -/
theorem verifyWebhook_untagged (p : List Nat) (s sig : String)
    (hsig : sig ≠ "") (htag : hasTag sig.data = false) :
    verifyWebhook p (some sig) s =
      (if (bufferFromHex sig.data).length ≠ (hmacSha256 (strBytes s) p).length then false
       else timingSafeEqual (bufferFromHex sig.data) (hmacSha256 (strBytes s) p)) := by
  simp only [verifyWebhook, hsig, htag, Bool.false_eq_true, if_false]
  rw [bufferFromHex_hexEncodeL _ (hmacSha256_bytes_lt _ _)]

/-- The correctly computed hex signature always verifies. -/
theorem verifyWebhook_correct_sig (p : List Nat) (s : String) (d : List Nat)
    (hd : hmacSha256 (strBytes s) p = d) :
    verifyWebhook p (some (String.mk (hexEncodeL d))) s = true := by
  have hlen : d.length = 32 := by rw [← hd]; exact hmacSha256_length _ _
  have hbytes : ∀ x ∈ d, x < 256 := by rw [← hd]; exact hmacSha256_bytes_lt _ _
  have hdne : d ≠ [] := by
    intro h
    rw [h] at hlen
    simp at hlen
  have hsig : String.mk (hexEncodeL d) ≠ "" := by
    intro h
    have hdata := congrArg String.data h
    have hl := hexEncodeL_length d
    rw [show (String.mk (hexEncodeL d)).data = hexEncodeL d from rfl] at hdata
    rw [hdata, hlen] at hl
    simp at hl
  have htag : hasTag (String.mk (hexEncodeL d)).data = false := hasTag_hexEncodeL d hdne
  rw [verifyWebhook_untagged p s _ hsig htag]
  rw [show (String.mk (hexEncodeL d)).data = hexEncodeL d from rfl]
  rw [bufferFromHex_hexEncodeL d hbytes, hd]
  rw [if_neg (by simp)]
  exact (timingSafeEqual_iff _ _ rfl).mpr rfl

/-- Verifying any payload against the hex encoding of a 32-byte value `d`
succeeds exactly when the payload's HMAC digest equals `d`. -/
theorem verifyWebhook_sig_decides (p : List Nat) (s : String) (d : List Nat)
    (hlen : d.length = 32) (hbytes : ∀ x ∈ d, x < 256) :
    verifyWebhook p (some (String.mk (hexEncodeL d))) s = true ↔
      hmacSha256 (strBytes s) p = d := by
  have hdne : d ≠ [] := by
    intro h
    rw [h] at hlen
    simp at hlen
  have hsig : String.mk (hexEncodeL d) ≠ "" := by
    intro h
    have hdata := congrArg String.data h
    have hl := hexEncodeL_length d
    rw [show (String.mk (hexEncodeL d)).data = hexEncodeL d from rfl] at hdata
    rw [hdata, hlen] at hl
    simp at hl
  have htag : hasTag (String.mk (hexEncodeL d)).data = false := hasTag_hexEncodeL d hdne
  rw [verifyWebhook_untagged p s _ hsig htag]
  rw [show (String.mk (hexEncodeL d)).data = hexEncodeL d from rfl]
  rw [bufferFromHex_hexEncodeL d hbytes]
  rw [if_neg (by rw [hlen, hmacSha256_length]; simp)]
  rw [timingSafeEqual_iff _ _ (by rw [hlen, hmacSha256_length])]
  constructor
  · intro h
    exact h.symm
  · intro h
    exact h.symm

/-- The hex HMAC-SHA256 of payload `hello` under secret `sec`
(`ebe9f693...189c`, matching `openssl dgst -sha256 -hmac sec`). -/
def macHexC3 : List Char := hexEncodeL (hmacSha256 (strBytes "sec") (strBytes "hello"))

/-- The correct signature with the ASCII case bit (0x20) of its first
character flipped: `e` has become `E`. -/
def sigC3 : String := "Ebe9f693883053a1dedeea68252227fc40d06868ae16dfbfd84d723ae25a189c"

/-- Counterexample to claim C3: `sigC3` differs from the correct hex
signature of payload `hello` under secret `sec` in exactly one character,
and that character differs in exactly one bit (the 0x20 ASCII case bit:
`e` versus `E`), yet `verifyWebhook` still returns true, because Node's
hex decoding treats upper- and lower-case digits alike. Flipping that
single signature bit does not make verification fail. -/
theorem claim_C3_counterexample :
    sigC3.data ≠ macHexC3 ∧
    sigC3.data.length = macHexC3.length ∧
    (sigC3.data.zip macHexC3).countP (fun pr => pr.1 != pr.2) = 1 ∧
    (∀ pr ∈ sigC3.data.zip macHexC3, pr.1 = pr.2 ∨ pr.1.toNat ^^^ pr.2.toNat = 32) ∧
    verifyWebhook (strBytes "hello") (some sigC3) "sec" = true := by
  refine ⟨by decide, by decide, by decide, by decide, by decide⟩

/-- Claim C3 as amended: the correctly computed hex signature always
verifies, with or without the `sha256=` tag; an untagged signature whose
hex-decoding differs from the digest (in length or in any byte — in
particular after any bit flip that changes the decoded bytes) is rejected;
and verifying a modified payload against the original signature succeeds
exactly when the modified payload's HMAC digest coincides with the
original digest — so a payload bit flip is rejected precisely when it
changes the digest (which no concrete proof can establish for every
payload, being second-preimage resistance), and a signature bit flip that
merely toggles the case of a hex letter is still accepted. -/
theorem claim_C3_amended :
    (∀ (p : List Nat) (s : String),
      verifyWebhook p (some (String.mk (hexEncodeL (hmacSha256 (strBytes s) p)))) s = true ∧
      verifyWebhook p
        (some ("sha256=" ++ String.mk (hexEncodeL (hmacSha256 (strBytes s) p)))) s = true) ∧
    (∀ (p : List Nat) (s sig : String), hasTag sig.data = false →
      bufferFromHex sig.data ≠ hmacSha256 (strBytes s) p →
      verifyWebhook p (some sig) s = false) ∧
    (∀ (p p' : List Nat) (s : String),
      verifyWebhook p'
          (some (String.mk (hexEncodeL (hmacSha256 (strBytes s) p)))) s = true ↔
        hmacSha256 (strBytes s) p' = hmacSha256 (strBytes s) p) := by
  refine ⟨?_, ?_, ?_⟩
  · intro p s
    have hlen := hmacSha256_length (strBytes s) p
    have hdne : hmacSha256 (strBytes s) p ≠ [] := by
      intro h
      rw [h] at hlen
      simp at hlen
    have hsig : String.mk (hexEncodeL (hmacSha256 (strBytes s) p)) ≠ "" := by
      intro h
      have hdata := congrArg String.data h
      have hl := hexEncodeL_length (hmacSha256 (strBytes s) p)
      rw [show (String.mk (hexEncodeL (hmacSha256 (strBytes s) p))).data =
            hexEncodeL (hmacSha256 (strBytes s) p) from rfl] at hdata
      rw [hdata, hlen] at hl
      simp at hl
    refine ⟨verifyWebhook_correct_sig p s _ rfl, ?_⟩
    rw [verifyWebhook_tag_equiv p s _ (eq_not_mem_hexEncodeL _) hsig]
    exact verifyWebhook_correct_sig p s _ rfl
  · intro p s sig htag hneq
    by_cases hs : sig = ""
    · subst hs
      rfl
    · rw [verifyWebhook_untagged p s sig hs htag]
      by_cases hl : (bufferFromHex sig.data).length ≠ (hmacSha256 (strBytes s) p).length
      · rw [if_pos hl]
      · have hleq : (bufferFromHex sig.data).length =
            (hmacSha256 (strBytes s) p).length := not_not.mp hl
        rw [if_neg hl]
        cases hb : timingSafeEqual (bufferFromHex sig.data) (hmacSha256 (strBytes s) p)
        · rfl
        · exact absurd ((timingSafeEqual_iff _ _ hleq).mp hb) hneq
  · intro p p' s
    exact verifyWebhook_sig_decides p' s _ (hmacSha256_length _ _) (hmacSha256_bytes_lt _ _)

/-- Witness for the amended C3: the correct signature for `hello`/`sec`
verifies; the wrong signature `00` is rejected; and verifying the one-bit
modified payload `iello` against `hello`'s signature is accepted exactly
when the digests coincide. -/
theorem claim_C3_amended_witness :
    verifyWebhook (strBytes "hello")
      (some (String.mk (hexEncodeL (hmacSha256 (strBytes "sec") (strBytes "hello")))))
      "sec" = true ∧
    hasTag "00".data = false ∧
    bufferFromHex "00".data ≠ hmacSha256 (strBytes "sec") (strBytes "hello") ∧
    verifyWebhook (strBytes "hello") (some "00") "sec" = false ∧
    (verifyWebhook (strBytes "iello")
        (some (String.mk (hexEncodeL (hmacSha256 (strBytes "sec") (strBytes "hello")))))
        "sec" = true ↔
      hmacSha256 (strBytes "sec") (strBytes "iello") =
        hmacSha256 (strBytes "sec") (strBytes "hello")) :=
  ⟨(claim_C3_amended.1 (strBytes "hello") "sec").1, by decide, by decide,
   claim_C3_amended.2.1 (strBytes "hello") "sec" "00" (by decide) (by decide),
   claim_C3_amended.2.2 (strBytes "hello") (strBytes "iello") "sec"⟩

/-- The correct hex signature for `hello`/`sec` as a string. -/
def macHexStrC4 : String :=
  String.mk (hexEncodeL (hmacSha256 (strBytes "sec") (strBytes "hello")))

/-- The correct signature followed by two non-hex characters. -/
def sigC4 : String := macHexStrC4 ++ "zz"

/-- Counterexample to claim C4: `sigC4` is not valid hex (it ends in
`zz`), yet `verifyWebhook` returns true: Node's hex decoding stops at the
first invalid character, so the decoded bytes are exactly the correct
32-byte digest and the comparison succeeds. -/
theorem claim_C4_counterexample :
    (¬ ∀ c ∈ sigC4.data, (hexDigitVal c).isSome = true) ∧
    verifyWebhook (strBytes "hello") (some sigC4) "sec" = true := by
  refine ⟨by decide, by decide⟩

/-- Claim C4 as amended: `verifyWebhook` is total and returns false for an
absent or empty signature header and for every untagged signature whose
hex-decoding (which truncates at the first invalid character) does not
have the digest's 32-byte length; and a `sha256=`-tagged signature with a
nonempty, `=`-free remainder is handled identically to the bare remainder.
A malformed signature is not always rejected, however: one whose first 64
characters are the correct digest hex followed by trailing non-hex
characters decodes to the correct digest and is accepted. -/
theorem claim_C4_amended :
    (∀ (p : List Nat) (s : String),
      verifyWebhook p none s = false ∧ verifyWebhook p (some "") s = false) ∧
    (∀ (p : List Nat) (s sig : String), hasTag sig.data = false →
      (bufferFromHex sig.data).length ≠ 32 → verifyWebhook p (some sig) s = false) ∧
    (∀ (p : List Nat) (s sig : String), '=' ∉ sig.data → sig ≠ "" →
      verifyWebhook p (some ("sha256=" ++ sig)) s = verifyWebhook p (some sig) s) := by
  refine ⟨?_, ?_, ?_⟩
  · intro p s
    exact ⟨rfl, rfl⟩
  · intro p s sig htag hlen
    by_cases hs : sig = ""
    · subst hs
      rfl
    · rw [verifyWebhook_untagged p s sig hs htag]
      rw [if_pos (by rw [hmacSha256_length]; exact hlen)]
  · intro p s sig hne hsig
    exact verifyWebhook_tag_equiv p s sig hne hsig

/-- Witness for the amended C4: absent and empty headers are rejected; the
short non-digest signature `ab` is rejected; and the tag is transparent
for the (wrong but well-formed) signature `deadbeef`. -/
theorem claim_C4_amended_witness :
    verifyWebhook (strBytes "x") none "k" = false ∧
    hasTag "ab".data = false ∧ (bufferFromHex "ab".data).length ≠ 32 ∧
    verifyWebhook (strBytes "x") (some "ab") "k" = false ∧
    '=' ∉ "deadbeef".data ∧ "deadbeef" ≠ "" ∧
    verifyWebhook (strBytes "x") (some ("sha256=" ++ "deadbeef")) "k" =
      verifyWebhook (strBytes "x") (some "deadbeef") "k" :=
  ⟨(claim_C4_amended.1 (strBytes "x") "k").1, by decide, by decide,
   claim_C4_amended.2.1 (strBytes "x") "k" "ab" (by decide) (by decide),
   by decide, by decide,
   claim_C4_amended.2.2 (strBytes "x") "k" "deadbeef" (by decide) (by decide)⟩
